import Mathlib

/-!
Verification development for the bls-hsm remote BLS signer.

The definitions below are a shallow embedding of the two source files of the
repository: the secure-world key store (`part_000`: globals `sk`,
`secret_keys_store`, `sk_sign`, `public_keys_hex_store`, `keystore_size` and
the entry functions operating on them) and the HTTP layer `httpRemote.h`
(request framing, header scanning, response rendering and the EIP-2335
keystore pipeline).  Buffers are modelled as `List Char`, ints as `Int`/`Nat`,
fallible C functions returning an `int` error code as `Except`/`Option`,
and the file-scope globals as an explicit `SignerState` record threaded
through each operation.
-/

set_option autoImplicit false

namespace BlsHsm

/-! ## Constants from httpRemote.h -/

def MAXKeys : Nat := 10
def keySize : Nat := 96
def SCRYPTTYPE : Int := 1
def PBKDF2TYPE : Int := 2
def textPlain : Int := 0
def applicationJson : Int := 1

/-! ## C string primitives used by the source (strstr, strchr, atoi) -/

/-- Index of the first occurrence of `pat` in the buffer (C `strstr`),
as an offset from the start of the buffer. -/
def strstrIdx (pat : List Char) : List Char → Option Nat
  | [] => if pat.isEmpty then some 0 else none
  | x :: xs =>
    if pat.isPrefixOf (x :: xs) then some 0
    else (strstrIdx pat xs).map (· + 1)

/-- Index of the first occurrence of character `c` (C `strchr`),
as an offset from the start of the buffer. -/
def strchrIdx (c : Char) : List Char → Option Nat
  | [] => none
  | x :: xs => if x == c then some 0 else (strchrIdx c xs).map (· + 1)

/-- Decimal digit accumulator of C `atoi`: consumes leading digits. -/
def atoiDigits : List Char → Nat → Nat
  | [], acc => acc
  | c :: rest, acc =>
    if c.isDigit then atoiDigits rest (acc * 10 + (c.toNat - 48)) else acc

/-- C `atoi` on the nonnegative inputs that occur in the source: skips
leading spaces, then reads a run of decimal digits. -/
def atoi (s : List Char) : Nat :=
  atoiDigits (s.dropWhile (· == ' ')) 0

/-- Value of a digit string (used to state what `atoi` computes). -/
def digitsVal (d : List Char) : Nat :=
  d.foldl (fun acc c => acc * 10 + (c.toNat - 48)) 0

/-! ## Key-store state (globals of part_000) -/

/-- The 32 bytes `b[32]` of a `blst_scalar`. -/
abbrev Scalar := List Nat

def zeroScalar : Scalar := List.replicate 32 0

/-- The file-scope globals of the secure-world source file: `sk`,
`secret_keys_store[10]`, `sk_sign`, `public_keys_hex_store[960]` and
`keystore_size`.  The two arrays are modelled as total functions on `Nat`
so that the source's unguarded writes beyond the array bounds stay
expressible. -/
structure SignerState where
  sk : Scalar
  secret_keys_store : Nat → Scalar
  sk_sign : Scalar
  public_keys_hex_store : Nat → Char
  keystore_size : Nat

/-- Point update of an array modelled as a function. -/
def storeWrite (f : Nat → Scalar) (n : Nat) (v : Scalar) : Nat → Scalar :=
  fun i => if i = n then v else f i

def get_keystore_size (st : SignerState) : Nat := st.keystore_size

/-- `getkeys`: copies the first `keystore_size*96` chars of the hex store. -/
def getkeys (st : SignerState) : List Char :=
  (List.range (st.keystore_size * 96)).map st.public_keys_hex_store

/-- The inner `x`-loop of `pk_in_keystore`: the flag `c` stays `0` precisely
when all 96 chars of the candidate key match row `i` of the hex store. -/
def pkMatchAt (public_key_hex : Nat → Char) (offset : Nat) (st : SignerState)
    (i : Nat) : Bool :=
  (List.range 96).all fun x =>
    public_key_hex (x + offset) == st.public_keys_hex_store (x + 96 * i)

/-- `pk_in_keystore`: scans the rows in order (the `i`/`cont`/`c` loop of the
source); the first full 96-char match copies the secret at that index into
the global `sk_sign` and returns `0`; otherwise (including the empty store)
it returns `-1` and writes nothing. -/
def pk_in_keystore (public_key_hex : Nat → Char) (offset : Nat)
    (st : SignerState) : Int × SignerState :=
  match (List.range st.keystore_size).find?
      (fun i => pkMatchAt public_key_hex offset st i) with
  | some i => (0, { st with sk_sign := st.secret_keys_store i })
  | none => (-1, st)

/-- `ikm_sk` (EMU branch): derives a fresh secret with `blst_keygen` (an
external primitive, passed as a parameter together with the random `ikm`),
stores it at index `keystore_size` and increments the size.  The source has
no capacity check: at size 10 this writes past `secret_keys_store[10]`. -/
def ikm_sk (blst_keygen : List Nat → List Nat → Scalar)
    (ikm info : List Nat) (st : SignerState) : SignerState :=
  let sknew := blst_keygen ikm info
  { st with
    sk := sknew
    secret_keys_store := storeWrite st.secret_keys_store st.keystore_size sknew
    keystore_size := st.keystore_size + 1 }

/-- The inner `x`-loop of `import_sk`: `c` stays `0` precisely when all 32
bytes of the stored scalar equal those of the candidate. -/
def scalarBytesEq (a b : Scalar) : Bool :=
  (List.range 32).all fun x => a.getD x 0 == b.getD x 0

/-- `import_sk`: on an empty store appends directly; otherwise scans for a
bytewise-equal stored scalar and returns `-1` on a duplicate, or appends at
index `keystore_size` and returns `0`.  The source has no capacity check:
at size 10 the append writes past `secret_keys_store[10]`. -/
def import_sk (sk_imp : Scalar) (st : SignerState) : Int × SignerState :=
  if st.keystore_size = 0 then
    (0, { st with
      secret_keys_store := storeWrite st.secret_keys_store 0 sk_imp
      keystore_size := 1
      sk := sk_imp })
  else
    match (List.range st.keystore_size).find?
        (fun i => scalarBytesEq (st.secret_keys_store i) sk_imp) with
    | some _ => (-1, st)
    | none =>
      (0, { st with
        secret_keys_store :=
          storeWrite st.secret_keys_store st.keystore_size sk_imp
        keystore_size := st.keystore_size + 1
        sk := sk_imp })

/-- `reset`: `memset` of the ten stored scalars and of the 960-char hex
store, and `keystore_size = 0`.  The globals `sk` and `sk_sign` are not
touched by the source. -/
def reset (st : SignerState) : SignerState :=
  { st with
    secret_keys_store := fun i =>
      if i < 10 then zeroScalar else st.secret_keys_store i
    public_keys_hex_store := fun i =>
      if i < 960 then Char.ofNat 0 else st.public_keys_hex_store i
    keystore_size := 0 }

/-- Abstract bytes of a `blst_p2` point. -/
abbrev P2 := List Nat

/-- `sign_pk`: signs the hash with the global `sk_sign` via the external
primitive `blst_sign_pk_in_g1`, passed as a parameter. -/
def sign_pk (blst_sign_pk_in_g1 : P2 → Scalar → P2) (hash : P2)
    (st : SignerState) : P2 :=
  blst_sign_pk_in_g1 hash st.sk_sign

/-! ## Header scanning (getAcceptOptions / getBody of httpRemote.h)

A parsed header is a (name, value) pair as produced by `phr_parse_request`. -/

/-- `getAcceptOptions`: scans for the first header whose name has length 6
and whose 6 chars equal `"Accept"` under `strncmp` (an exact, case-sensitive
match).  If found, the value `"application/json"` or `"*/*"` selects
`applicationJson`, anything else `textPlain`; with no such header the
result is `textPlain`. -/
def getAcceptOptions (headers : List (String × String)) : Int :=
  match headers.find? (fun h => h.1.length == 6 && h.1 == "Accept") with
  | some h =>
    if h.2 == "application/json" || h.2 == "*/*" then applicationJson
    else textPlain
  | none => textPlain

/-- `getBody`, reduced to the content length it extracts: the scan loop of
the source continues while NOT `(name_len == 14 && strncmp("content-length",
name, 14))`, i.e. it stops at the first header whose 14-char name DIFFERS
from the exact lowercase `"content-length"` (the comparison lacks the
negation that `getAcceptOptions` has).  That header's value is fed to
`atoi`; a positive value locates a body (`some`), otherwise the body is
`NULL`.  When no header stops the loop, `bodyLen` is left unset (`none`). -/
def getBodyLen (headers : List (String × String)) : Option Nat :=
  match headers.find? (fun h => h.1.length == 14 && !(h.1 == "content-length")) with
  | some h =>
    let n := atoi h.2.toList
    if n > 0 then some n else none
  | none => none

/-! ## copyKeys and checkKey -/

/-- `copyKeys`: returns `none` on an empty keystore (the `-1` path), and
otherwise the `keystore_size` rows of 96 chars read out by `getkeys`.
(The source copies each row with `strncpy(..., 96)`; stored keys are hex
strings, so no interior NUL cuts the copy short.) -/
def copyKeys (st : SignerState) : Option (List (List Char)) :=
  if st.keystore_size = 0 then none
  else
    some ((List.range st.keystore_size).map fun i =>
      (List.range 96).map fun x => st.public_keys_hex_store (96 * i + x))

/-- `checkKey`: `-1` when `copyKeys` reports an empty store; otherwise `0`
iff some stored row agrees with `keyToSign` on the first 96 chars
(`strncmp(keyToSign, publicKeys[i], keySize) == 0`). -/
def checkKey (keyToSign : List Char) (st : SignerState) : Int :=
  match copyKeys st with
  | none => -1
  | some pks =>
    if pks.any (fun k => keyToSign.take 96 == k.take 96) then 0 else -1

/-- The `keyToSign` field as `parseRequest` fills it for a sign request:
`'0'`, `'x'`, then the 96 path chars after the `/api/v1/eth2/sign/0x`
route string. -/
def mkKeyToSign (hex96 : List Char) : List Char :=
  '0' :: 'x' :: hex96.take 96

/-! ## POST/GET framing prefix of parseRequest (httpRemote.h lines 219-255) -/

/-- Outcome of the framing block at the top of `parseRequest`: either an
early return with a code (`-1` bad request, `-2` incomplete), or a fall
through to `phr_parse_request` and endpoint classification. -/
inductive FramingResult where
  | decided (code : Int)
  | through
deriving DecidableEq

/-- The framing block of `parseRequest`.  For a POST it looks for the first
occurrence of `"Content-Length: "`, takes `clen = atoi` of what follows,
and `headlen` = offset of the first `'\r'` at or after that occurrence;
with `explen = clen + 4 + headlen` it returns `-1` when the buffer is
longer and `-2` when shorter, falling through on equality.  Without the
`'\r'` (resp. without the header) buffers under 300 bytes are `-2`;
otherwise `-1` (resp. fall through).  A GET falls through once
`"\r\n\r\n"` occurs, else `-2`/`-1` by the same 300-byte limit.  Any other
method is `-1`. -/
def parseRequestFraming (buf : List Char) : FramingResult :=
  if ¬ (buf.take 4 = "POST".toList) ∧ ¬ (buf.take 3 = "GET".toList) then
    .decided (-1)
  else if buf.take 4 = "POST".toList then
    match strstrIdx "Content-Length: ".toList buf with
    | some p =>
      match (strchrIdx '\r' (buf.drop p)).map (· + p) with
      | some q =>
        let clen := atoi (buf.drop (p + 16))
        let headlen := q
        let explen := clen + 4 + headlen
        if buf.length > explen then .decided (-1)
        else if buf.length < explen then .decided (-2)
        else .through
      | none => if buf.length < 300 then .decided (-2) else .decided (-1)
    | none => if buf.length < 300 then .decided (-2) else .through
  else
    match strstrIdx "\r\n\r\n".toList buf with
    | none => if buf.length < 300 then .decided (-2) else .decided (-1)
    | some _ => .through

/-- `parseRequest` as observed through its return code: the framing block
either decides the result, or the rest of the function (picohttpparser plus
endpoint classification, abstracted as `restParse`) produces it. -/
def parseRequestResult (restParse : List Char → Int) (buf : List Char) : Int :=
  match parseRequestFraming buf with
  | .decided c => c
  | .through => restParse buf

/-! ## ListKeys response body (getKeysResponseStr) -/

/-- One iteration of the key loop of `getKeysResponseStr`: `"0x`, then up
to `keySize` chars of the key (`strncat`), a closing quote, a comma unless
the entry is the last one, and a newline. -/
def keyEntry (k : List Char) (isLast : Bool) : List Char :=
  ['\"', '0', 'x'] ++ k.take 96 ++ ['\"'] ++
    (if isLast then [] else [',']) ++ ['\n']

/-- The concatenation built by the key loop. -/
def keysEntries : List (List Char) → List Char
  | [] => []
  | [k] => keyEntry k true
  | k :: rest => keyEntry k false ++ keysEntries rest

/-- The response body emitted by `getKeysResponseStr` after the
`Content-Length` value: `"[\n"`, the entries, `"]"`. -/
def getKeysBody (keys : List (List Char)) : List Char :=
  ['[', '\n'] ++ keysEntries keys ++ [']']

/-- The `Content-Length` value `getKeysResponseStr` prints:
`6*nKeys - 1 + nKeys*keySize + 3`, overridden to `3` for zero keys. -/
def jsonKeysSize (nKeys : Nat) : Nat :=
  if nKeys = 0 then 3 else 6 * nKeys - 1 + nKeys * 96 + 3

/-- The ListKeys body as the specification states it: entries
`"0x<hex>"` separated by `",\n"` inside `[\n` ... `\n]`, and exactly
`[\n]` for the empty keystore. -/
def specKeysBody (keys : List (List Char)) : List Char :=
  if keys = [] then ['[', '\n', ']']
  else
    ['[', '\n'] ++
      (List.intercalate [',', '\n']
        (keys.map fun k => ['\"', '0', 'x'] ++ k ++ ['\"'])) ++
      ['\n', ']']

/-! ## cJSON model and the EIP-2335 import pipeline -/

/-- A parsed cJSON tree. -/
inductive CJson where
  | jnull : CJson
  | jbool : Bool → CJson
  | jnum : Int → CJson
  | jstr : String → CJson
  | jarr : List CJson → CJson
  | jobj : List (String × CJson) → CJson

/-- `cJSON_GetObjectItemCaseSensitive`: the first member of an object with
exactly the given name; `NULL` (here `none`) on any other node kind. -/
def getObjectItemCS (j : CJson) (name : String) : Option CJson :=
  match j with
  | .jobj fields => (fields.find? (fun f => f.1 == name)).map (·.2)
  | _ => none

/-- `item->type == cJSON_Object`. -/
def CJson.isObj : CJson → Bool
  | .jobj _ => true
  | _ => false

/-- `item->child` of cJSON: the elements of an array, the member values of
an object, nothing otherwise. -/
def CJson.children : CJson → List CJson
  | .jarr xs => xs
  | .jobj fs => fs.map (·.2)
  | _ => []

/-- Error codes of the import pipeline: `BADJSONFORMAT` from common.h, the
bare `return -1` branches, and whatever the external collaborators return. -/
inductive KErr where
  | badjsonformat
  | negOne
  | ext (code : Int)
deriving DecidableEq

/-- `NULL`-check on a cJSON lookup, failing with `BADJSONFORMAT`. -/
def reqItem (o : Option CJson) : Except KErr CJson :=
  match o with
  | some v => Except.ok v
  | none => Except.error KErr.badjsonformat

/-- `item == NULL || item->type != cJSON_Number`, then `item->valueint`. -/
def reqNum (o : Option CJson) : Except KErr Int :=
  match o with
  | some (.jnum n) => Except.ok n
  | _ => Except.error KErr.badjsonformat

/-- `item == NULL || item->type != cJSON_String`, then `item->valuestring`. -/
def reqStr (o : Option CJson) : Except KErr String :=
  match o with
  | some (.jstr s) => Except.ok s
  | _ => Except.error KErr.badjsonformat

/-- `get_decryption_key_encryption_type`: object check, then
`crypto.kdf.function` must be a string equal to `"pbkdf2"` (type 2) or
`"scrypt"` (type 1); any other string is the bare `-1` error. -/
def get_decryption_key_encryption_type (keystore : CJson) :
    Except KErr Int := do
  if ¬ keystore.isObj then throw KErr.badjsonformat
  let crypto ← reqItem (getObjectItemCS keystore "crypto")
  let kdf ← reqItem (getObjectItemCS crypto "kdf")
  let f ← reqStr (getObjectItemCS kdf "function")
  if f = "pbkdf2" then pure PBKDF2TYPE
  else if f = "scrypt" then pure SCRYPTTYPE
  else throw KErr.negOne

/-- `get_decryption_key_pbkdf2_params`: extracts `crypto.kdf.params.dklen`
(Number), `.c` (Number), `.prf` (String) and `.salt` (String), rejecting a
missing or wrong-typed field with `BADJSONFORMAT` — and then returns `0`:
the call to `get_decryption_key_pbkdf2` on the final line of the source is
commented out, so no key derivation runs, `password` is unused, the
`decryption_key` output buffer is never written, and neither `dklen` nor
`prf` is checked against any expected value. -/
def get_decryption_key_pbkdf2_params (keystore : CJson) (password : String) :
    Except KErr Unit := do
  if ¬ keystore.isObj then throw KErr.badjsonformat
  let crypto ← reqItem (getObjectItemCS keystore "crypto")
  let kdf ← reqItem (getObjectItemCS crypto "kdf")
  let params ← reqItem (getObjectItemCS kdf "params")
  let _dklen ← reqNum (getObjectItemCS params "dklen")
  let _c ← reqNum (getObjectItemCS params "c")
  let _prf ← reqStr (getObjectItemCS params "prf")
  let _salt ← reqStr (getObjectItemCS params "salt")
  let _pw := password
  pure ()

/-- The external collaborators of the pipeline that live in bls_hsm_ns.h
(not part of the sources under verification): the scrypt KDF, the checksum
verification and the AES-CTR secret extraction.  The pipeline theorems
quantify over them. -/
structure Externals where
  get_decryption_key_scrypt :
    String → Int → Int → Int → Int → String → Except KErr (List Nat)
  verificate_password : String → String → List Nat → Except KErr Unit
  get_private_key : String → String → List Nat → Except KErr Unit

/-- `get_decryption_key_scrypt_params`: extracts `dklen`, `n`, `r`, `p`
(Numbers) and `salt` (String) from `crypto.kdf.params` and calls the
external scrypt KDF, which produces the decryption key. -/
def get_decryption_key_scrypt_params (ext : Externals) (keystore : CJson)
    (password : String) : Except KErr (List Nat) := do
  if ¬ keystore.isObj then throw KErr.badjsonformat
  let crypto ← reqItem (getObjectItemCS keystore "crypto")
  let kdf ← reqItem (getObjectItemCS crypto "kdf")
  let params ← reqItem (getObjectItemCS kdf "params")
  let dklen ← reqNum (getObjectItemCS params "dklen")
  let n ← reqNum (getObjectItemCS params "n")
  let r ← reqNum (getObjectItemCS params "r")
  let p ← reqNum (getObjectItemCS params "p")
  let salt ← reqStr (getObjectItemCS params "salt")
  ext.get_decryption_key_scrypt password dklen n r p salt

/-- `verificate_password_params`: extracts `crypto.checksum.message` and
`crypto.cipher.message` (Strings) and calls the external checksum check
with the current decryption key. -/
def verificate_password_params (ext : Externals) (keystore : CJson)
    (decryption_key : List Nat) : Except KErr Unit := do
  if ¬ keystore.isObj then throw KErr.badjsonformat
  let crypto ← reqItem (getObjectItemCS keystore "crypto")
  let checksum ← reqItem (getObjectItemCS crypto "checksum")
  let cipher ← reqItem (getObjectItemCS crypto "cipher")
  let checksum_message ← reqStr (getObjectItemCS checksum "message")
  let cipher_message ← reqStr (getObjectItemCS cipher "message")
  ext.verificate_password checksum_message cipher_message decryption_key

/-- `get_private_key_params`: extracts `crypto.cipher.params.iv` and
`crypto.cipher.message` (Strings) and calls the external AES-CTR secret
extraction with the current decryption key. -/
def get_private_key_params (ext : Externals) (keystore : CJson)
    (decryption_key : List Nat) : Except KErr Unit := do
  if ¬ keystore.isObj then throw KErr.badjsonformat
  let crypto ← reqItem (getObjectItemCS keystore "crypto")
  let cipher ← reqItem (getObjectItemCS crypto "cipher")
  let cipherParams ← reqItem (getObjectItemCS cipher "params")
  let iv ← reqStr (getObjectItemCS cipherParams "iv")
  let cipher_message ← reqStr (getObjectItemCS cipher "message")
  ext.get_private_key cipher_message iv decryption_key

/-- `import_from_keystore`: the `for i < nKeys` loop over the paired
keystores and passwords, threading the single `decryption_key[32]` stack
buffer (left untouched on the pbkdf2 path, rewritten on the scrypt path);
the first failing stage aborts the whole call with its error.  The loop
never touches the key-store state: no insertion is performed. -/
def import_from_keystore (ext : Externals) :
    List Nat → List (CJson × String) → Except KErr Unit
  | _, [] => Except.ok ()
  | dk, (k, p) :: rest => do
    let t ← get_decryption_key_encryption_type k
    let dk2 ←
      if t = PBKDF2TYPE then do
        get_decryption_key_pbkdf2_params k p
        pure dk
      else if t = SCRYPTTYPE then
        get_decryption_key_scrypt_params ext k p
      else throw KErr.negOne
    verificate_password_params ext k dk2
    get_private_key_params ext k dk2
    import_from_keystore ext dk2 rest

/-- The keystore-collection `while` loop of `httpImportFromKeystore`, with
the counter starting at `n` and the source's bound
`nKeystores < MAXKeys + nKeysAlreadyStored`: entries are appended while the
counter is below the bound, and one more entry returns the `-1` error
(`none`).  In C the destination is `cJSON* keystores[MAXKeys]`, so any
entry collected at index ≥ MAXKeys is written out of bounds. -/
def collectKeystores (bound : Nat) (n : Nat) : List CJson → Option (List CJson)
  | [] => some []
  | x :: xs =>
    if n < bound then (collectKeystores bound (n + 1) xs).map (x :: ·)
    else none

/-- The password-collection `while` loop: same bound, and each entry must
be a cJSON string. -/
def collectPasswords (bound : Nat) (n : Nat) : List CJson → Option (List String)
  | [] => some []
  | x :: xs =>
    if n < bound then
      match x with
      | .jstr s => (collectPasswords bound (n + 1) xs).map (s :: ·)
      | _ => none
    else none

/-- The body-parsing prefix of `httpImportFromKeystore`: parse failure,
missing or childless `keystores`/`passwords` members, the two collection
loops and the `nKeystores != nPasswords` check, all collapsing to the `-1`
error (`none`); `n0` is `get_keystore_size()`. -/
def parseImportBody (n0 : Nat) (body : Option CJson) :
    Option (List CJson × List String) :=
  match body with
  | none => none
  | some json =>
    match getObjectItemCS json "keystores" with
    | none => none
    | some ksJson =>
      if ksJson.children.isEmpty then none
      else
        match getObjectItemCS json "passwords" with
        | none => none
        | some pwJson =>
          if pwJson.children.isEmpty then none
          else
            match collectKeystores (MAXKeys + n0) 0 ksJson.children with
            | none => none
            | some keystores =>
              match collectPasswords (MAXKeys + n0) 0 pwJson.children with
              | none => none
              | some passwords =>
                if keystores.length ≠ passwords.length then none
                else some (keystores, passwords)

/-- `httpImportFromKeystore`: `-1` when the body fails to parse or any
pipeline stage fails, `0` on success; `dk0` models the uninitialized
`decryption_key[32]` stack buffer and `body` the `cJSON_Parse` result.
The key-store state is returned unchanged on every path, as the source
never writes it. -/
def httpImportFromKeystore (ext : Externals) (dk0 : List Nat)
    (st : SignerState) (body : Option CJson) : Int × SignerState :=
  match parseImportBody st.keystore_size body with
  | none => (-1, st)
  | some (keystores, passwords) =>
    match import_from_keystore ext dk0 (keystores.zip passwords) with
    | Except.error _ => (-1, st)
    | Except.ok _ => (0, st)

/-! ## Concrete states, buffers and JSON documents used to evaluate the
code at specific inputs -/

/-- A keystore holding exactly one public key, the 96-char hex string of
`'a'`s (with the matching row of the hex store filled accordingly). -/
def st1 : SignerState :=
  { sk := zeroScalar
    secret_keys_store := fun _ => zeroScalar
    sk_sign := zeroScalar
    public_keys_hex_store := fun _ => 'a'
    keystore_size := 1 }

/-- A keystore at full capacity: ten pairwise distinct stored scalars. -/
def st10 : SignerState :=
  { sk := zeroScalar
    secret_keys_store := fun i => List.replicate 32 (i + 1)
    sk_sign := zeroScalar
    public_keys_hex_store := fun _ => 'a'
    keystore_size := 10 }

/-- A fresh scalar distinct from every entry of `st10`. -/
def skNew : Scalar := List.replicate 32 100

/-- A signer state with live secret material in `sk`, the store and the
working copy `sk_sign`. -/
def stA : SignerState :=
  { sk := List.replicate 32 3
    secret_keys_store := fun _ => List.replicate 32 4
    sk_sign := List.replicate 32 5
    public_keys_hex_store := fun _ => 'a'
    keystore_size := 2 }

/-- A keystore holding one key whose hex chars are all `'b'`, with a
distinctive stored secret. -/
def stW : SignerState :=
  { sk := zeroScalar
    secret_keys_store := fun _ => List.replicate 32 9
    sk_sign := zeroScalar
    public_keys_hex_store := fun _ => 'b'
    keystore_size := 1 }

/-- A complete, well-formed POST to the import endpoint whose
`Content-Length` header (value 2) is followed by one more header.  Its
header section is the first 70 bytes, so the full buffer of 76 bytes is
exactly `headers_len + 4 + 2`. -/
def bufCLNotLast : List Char :=
  ("POST /eth/v1/keystores HTTP/1.1\r\nContent-Length: 2\r\n" ++
    "Accept: text/plain\r\n\r\nhi").toList

/-- A complete POST whose `Content-Length` header is the last header. -/
def bufCLLast : List Char :=
  ("POST / HTTP/1.1\r\nContent-Length: 2\r\n\r\nhi").toList

/-- A well-formed EIP-2335 pbkdf2 keystore document carrying every field
the import pipeline reads. -/
def ksOk : CJson :=
  .jobj [("crypto", .jobj
    [("kdf", .jobj [("function", .jstr "pbkdf2"),
       ("params", .jobj [("dklen", .jnum 32), ("c", .jnum 1),
         ("prf", .jstr "hmac-sha256"), ("salt", .jstr "00")])]),
     ("checksum", .jobj [("message", .jstr "aa")]),
     ("cipher", .jobj [("params", .jobj [("iv", .jstr "bb")]),
       ("message", .jstr "cc")])])]

/-- A pbkdf2 keystore whose `params.dklen` is 16 rather than 32. -/
def ks16 : CJson :=
  .jobj [("crypto", .jobj
    [("kdf", .jobj [("function", .jstr "pbkdf2"),
       ("params", .jobj [("dklen", .jnum 16), ("c", .jnum 1),
         ("prf", .jstr "hmac-sha256"), ("salt", .jstr "00")])])])]

/-- External collaborators that all succeed: the behaviour of
bls_hsm_ns.h on a batch whose passwords are all correct. -/
def extOk : Externals :=
  { get_decryption_key_scrypt := fun _ _ _ _ _ _ => Except.ok []
    verificate_password := fun _ _ _ => Except.ok ()
    get_private_key := fun _ _ _ => Except.ok () }

/-- External collaborators that all fail (arbitrary error codes). -/
def extFail : Externals :=
  { get_decryption_key_scrypt := fun _ _ _ _ _ _ => Except.error (KErr.ext 5)
    verificate_password := fun _ _ _ => Except.error (KErr.ext 6)
    get_private_key := fun _ _ _ => Except.error (KErr.ext 7) }

/-- An import request body with eleven valid keystores and eleven
passwords. -/
def body11 : CJson :=
  .jobj [("keystores", .jarr (List.replicate 11 ksOk)),
         ("passwords", .jarr (List.replicate 11 (.jstr "p")))]

/-- An import request body whose single keystore entry is malformed (an
empty object, missing `crypto`). -/
def bodyBad : CJson :=
  .jobj [("keystores", .jarr [.jobj []]),
         ("passwords", .jarr [.jstr "p"])]

/-- Two distinct stored keys for evaluating the ListKeys body. -/
def keysAB : List (List Char) :=
  [List.replicate 96 'a', List.replicate 96 'b']

/-! ## Theorems for the claims -/

/-- Claim C1, evaluated at the failing input: the key of 96 `'a'`s is
stored (`copyKeys` returns it), yet `checkKey` on the `keyToSign` that
`parseRequest` builds for a sign request on exactly that key returns `-1`,
so `dumpHttpResponse` answers 404 pknf.  The claim requires that a sign
request for a stored key never yields 404; the source compares the
`"0x"`-prefixed `keyToSign` against the unprefixed stored rows, so the
comparison fails at the second character for every stored hex key. -/
theorem c1_sign_request_for_stored_key_still_404 :
    copyKeys st1 = some [List.replicate 96 'a'] ∧
    checkKey (mkKeyToSign (List.replicate 96 'a')) st1 = -1 := by
  exact ⟨by decide, by decide⟩

/-- Claim C4, evaluated at the failing input: with the keystore already
holding `K = 10` keys, `import_sk` of a fresh scalar returns `0` (success,
not `Full`), appends the scalar at index 10 (in C an out-of-bounds write
past `secret_keys_store[10]`) and bumps the size to 11; `ikm_sk` likewise
appends unconditionally.  The claim requires a `Full` failure with no
mutation. -/
theorem c4_insert_at_capacity_not_full :
    st10.keystore_size = 10 ∧
    (import_sk skNew st10).1 = 0 ∧
    (import_sk skNew st10).2.keystore_size = 11 ∧
    (import_sk skNew st10).2.secret_keys_store 10 = skNew ∧
    (ikm_sk (fun _ _ => List.replicate 32 7) (List.replicate 32 1) []
      st10).keystore_size = 11 := by
  refine ⟨rfl, by decide, by decide, by decide, rfl⟩

/-- Claim C5, evaluated at the failing input: with one key already stored,
an import request carrying eleven keystore/password pairs — more than
`K - current_size = 9` — is not rejected: the collection loops bound the
batch by `MAXKeys + current_size` (a `+` where the claim, and the size of
the C array `cJSON* keystores[MAXKeys]`, require a `-`), and when every
entry decrypts the request succeeds with `0` (hence 200), never checking
the batch against the remaining capacity. -/
theorem c5_import_cap_check_uses_plus_not_minus :
    st1.keystore_size = 1 ∧
    (List.replicate 11 ksOk).length = 11 ∧
    MAXKeys - st1.keystore_size = 9 ∧
    (httpImportFromKeystore extOk [] st1 (some body11)).1 = 0 ∧
    (httpImportFromKeystore extOk [] st1 (some body11)).2 = st1 := by
  exact ⟨rfl, by decide, by decide, by rfl, by rfl⟩

/-- Claim C6, evaluated at the failing input: on a pbkdf2 keystore whose
`params.dklen` is 16, `get_decryption_key_pbkdf2_params` returns success
(`0`), not `BadJsonFormat` — the source extracts the params, checks nothing
about their values, and its call to the PBKDF2 KDF is commented out, so no
decryption key is ever derived. -/
theorem c6_pbkdf2_dklen16_accepted_without_kdf :
    get_decryption_key_encryption_type ks16 = Except.ok PBKDF2TYPE ∧
    get_decryption_key_pbkdf2_params ks16 "password" = Except.ok () := by
  exact ⟨rfl, rfl⟩

/-- Counterexample to claim C7: two requests differing only in the letter
case of the `Accept` header name are classified differently
(`application/json` under the canonical spelling, `text/plain` under the
lowercase one), and `getBody` finds the canonical `Content-Length` header
but not its all-lowercase variant. -/
theorem c7_header_case_counterexample :
    getAcceptOptions [("accept", "application/json")] = textPlain ∧
    getAcceptOptions [("Accept", "application/json")] = applicationJson ∧
    textPlain ≠ applicationJson ∧
    getBodyLen [("Content-Length", "5")] = some 5 ∧
    getBodyLen [("content-length", "5")] = none := by
  refine ⟨by decide, by decide, by decide, by decide, by decide⟩

/-- Claim C7 as amended: header-name matching is case-sensitive, not
case-insensitive.  `getAcceptOptions` selects only a header named exactly
`Accept`; any other 6-char name — case variants included — is treated as
absent, yielding `textPlain`.  `getBody` stops at the first header whose
14-char name differs from the exact lowercase `content-length` (its
comparison is inverted), so the canonical `Content-Length` is matched and
the lowercase spelling is skipped. -/
theorem c7_header_match_case_sensitive :
    (∀ nm v : String, nm ≠ "Accept" →
      getAcceptOptions [(nm, v)] = textPlain) ∧
    getAcceptOptions [("Accept", "application/json")] = applicationJson ∧
    (∀ nm v : String, nm.length = 14 → nm ≠ "content-length" →
      getBodyLen [(nm, v)] =
        (if atoi v.toList > 0 then some (atoi v.toList) else none)) ∧
    getBodyLen [("content-length", "5")] = none := by
  refine ⟨?_, by decide, ?_, by decide⟩
  · intro nm v hnm
    have hb : (nm == "Accept") = false := beq_eq_false_iff_ne.mpr hnm
    simp [getAcceptOptions, List.find?, hb]
  · intro nm v hl hnm
    have hb : (nm == "content-length") = false := beq_eq_false_iff_ne.mpr hnm
    have hlb : (nm.length == 14) = true := beq_iff_eq.mpr hl
    simp [getBodyLen, List.find?, hb, hlb]

/-- Witness for the amended C7 theorem at concrete headers. -/
theorem c7_header_match_case_sensitive_witness :
    getAcceptOptions [("aCCept", "application/json")] = textPlain ∧
    getBodyLen [("Content-Length", "5")] = some 5 := by
  refine ⟨c7_header_match_case_sensitive.1 "aCCept" "application/json"
    (by decide), ?_⟩
  have h := c7_header_match_case_sensitive.2.2.1 "Content-Length" "5"
    (by decide) (by decide)
  have h2 : (if atoi "5".toList > 0 then some (atoi "5".toList) else none) =
      some 5 := by decide
  exact h.trans h2

/-- Counterexample to claim C8: `reset` on a state whose working copy
`sk_sign` holds a live secret leaves that secret in place — the claim
requires every working copy of a secret key to be zeroized. -/
theorem c8_reset_keeps_sk_sign_counterexample :
    (reset stA).keystore_size = 0 ∧
    (reset stA).sk_sign = List.replicate 32 5 ∧
    (reset stA).sk = List.replicate 32 3 ∧
    List.replicate 32 5 ≠ zeroScalar := by
  refine ⟨rfl, rfl, rfl, by decide⟩

/-- Claim C8 as amended: after `reset()` the keystore size is 0, the ten
entries of the secret-key store and the 960 chars of the public-key hex
store are zeroized, but the working copies `sk` and `sk_sign` are left
unchanged. -/
theorem c8_reset_zeroizes_store_not_working_copies (st : SignerState) :
    (reset st).keystore_size = 0 ∧
    (∀ i, i < 10 → (reset st).secret_keys_store i = zeroScalar) ∧
    (∀ i, i < 960 → (reset st).public_keys_hex_store i = Char.ofNat 0) ∧
    (reset st).sk = st.sk ∧
    (reset st).sk_sign = st.sk_sign := by
  refine ⟨rfl, ?_, ?_, rfl, rfl⟩ <;> intro i hi <;> simp [reset, hi]

/-- Witness for the amended C8 theorem at a concrete state and index. -/
theorem c8_reset_zeroizes_store_witness :
    (reset stA).keystore_size = 0 ∧
    (reset stA).secret_keys_store 3 = zeroScalar ∧
    (reset stA).sk_sign = stA.sk_sign := by
  exact ⟨(c8_reset_zeroizes_store_not_working_copies stA).1,
    (c8_reset_zeroizes_store_not_working_copies stA).2.1 3 (by decide),
    (c8_reset_zeroizes_store_not_working_copies stA).2.2.2.2⟩

/-- Claim C10: `pk_in_keystore` never changes the keystore size, the
secret-key store or the public-key hex store; on success (return `0`) it
has copied the secret stored at a matching index into `sk_sign`, which is
exactly the scalar the next `sign_pk` call signs with; on failure the
whole state, `sk_sign` included, is unchanged. -/
theorem c10_pk_lookup_frame_and_effect (key : Nat → Char) (offset : Nat)
    (st : SignerState) :
    (pk_in_keystore key offset st).2.keystore_size = st.keystore_size ∧
    (pk_in_keystore key offset st).2.secret_keys_store =
      st.secret_keys_store ∧
    (pk_in_keystore key offset st).2.public_keys_hex_store =
      st.public_keys_hex_store ∧
    ((pk_in_keystore key offset st).1 = 0 →
      ∃ i, i < st.keystore_size ∧ pkMatchAt key offset st i = true ∧
        (pk_in_keystore key offset st).2.sk_sign =
          st.secret_keys_store i) ∧
    ((pk_in_keystore key offset st).1 ≠ 0 →
      (pk_in_keystore key offset st).2 = st) ∧
    (∀ bsign hash, sign_pk bsign hash (pk_in_keystore key offset st).2 =
      bsign hash (pk_in_keystore key offset st).2.sk_sign) := by
  unfold pk_in_keystore
  cases hfind : (List.range st.keystore_size).find?
      (fun i => pkMatchAt key offset st i) with
  | none =>
    refine ⟨rfl, rfl, rfl, ?_, fun _ => rfl, fun _ _ => rfl⟩
    intro h0
    simp at h0
  | some i =>
    have hp := List.find?_some hfind
    have hm := List.mem_range.mp (List.mem_of_find?_eq_some hfind)
    refine ⟨rfl, rfl, rfl, ?_, ?_, fun _ _ => rfl⟩
    · intro _
      exact ⟨i, hm, hp, rfl⟩
    · intro h0
      exact absurd rfl h0

/-- Witness for the C10 theorem: a state storing one key of `'b'`s; the
lookup succeeds and `sk_sign` receives the stored secret at index 0. -/
theorem c10_pk_lookup_witness :
    (pk_in_keystore (fun _ => 'b') 0 stW).1 = 0 ∧
    (pk_in_keystore (fun _ => 'b') 0 stW).2.sk_sign =
      stW.secret_keys_store 0 ∧
    (pk_in_keystore (fun _ => 'b') 0 stW).2.keystore_size =
      stW.keystore_size := by
  have h := c10_pk_lookup_frame_and_effect (fun _ => 'b') 0 stW
  refine ⟨by decide, ?_, h.1⟩
  obtain ⟨i, hi, _, hs⟩ := h.2.2.2.1 (by decide)
  have h1 : stW.keystore_size = 1 := rfl
  have hz : i = 0 := by omega
  rw [hs, hz]

/-- Claim C3: an import request never changes the keystore state — in
particular, when any entry of the batch fails (bad JSON, bad password, KDF
error), `httpImportFromKeystore` returns `-1` (which `dumpHttpResponse`
reports as its error result, emitted as 400 by the caller) and the
keystore size and contents equal their pre-request values.  The source
pipeline performs no insertion at all, so failure is trivially
all-or-nothing. -/
theorem c3_import_failure_atomic (ext : Externals) (dk0 : List Nat)
    (st : SignerState) (body : Option CJson) :
    (httpImportFromKeystore ext dk0 st body).2 = st ∧
    ((httpImportFromKeystore ext dk0 st body).1 = 0 ∨
      (httpImportFromKeystore ext dk0 st body).1 = -1) ∧
    (∀ ks ps e, parseImportBody st.keystore_size body = some (ks, ps) →
      import_from_keystore ext dk0 (ks.zip ps) = Except.error e →
      (httpImportFromKeystore ext dk0 st body).1 = -1) := by
  cases hpb : parseImportBody st.keystore_size body with
  | none =>
    have hre : httpImportFromKeystore ext dk0 st body = (-1, st) := by
      simp only [httpImportFromKeystore, hpb]
    rw [hre]
    exact ⟨rfl, Or.inr rfl, fun ks ps e hsome _ => absurd hsome (by simp)⟩
  | some pair =>
    obtain ⟨ks0, ps0⟩ := pair
    cases himp : import_from_keystore ext dk0 (ks0.zip ps0) with
    | error e0 =>
      have hre : httpImportFromKeystore ext dk0 st body = (-1, st) := by
        simp only [httpImportFromKeystore, hpb, himp]
      rw [hre]
      exact ⟨rfl, Or.inr rfl, fun _ _ _ _ _ => rfl⟩
    | ok u =>
      have hre : httpImportFromKeystore ext dk0 st body = (0, st) := by
        simp only [httpImportFromKeystore, hpb, himp]
      rw [hre]
      refine ⟨rfl, Or.inl rfl, ?_⟩
      intro ks ps e hsome hiz
      simp only [Option.some.injEq, Prod.mk.injEq] at hsome
      obtain ⟨h1, h2⟩ := hsome
      subst h1; subst h2
      rw [himp] at hiz
      exact absurd hiz (by simp)

/-- Witness for the C3 theorem: a batch whose single keystore entry is
malformed leaves the concrete state `st1` unchanged and fails with `-1`. -/
theorem c3_import_failure_atomic_witness :
    (httpImportFromKeystore extFail [] st1 (some bodyBad)).1 = -1 ∧
    (httpImportFromKeystore extFail [] st1 (some bodyBad)).2 = st1 := by
  have h := c3_import_failure_atomic extFail [] st1 (some bodyBad)
  refine ⟨?_, h.1⟩
  exact h.2.2 [.jobj []] ["p"] KErr.badjsonformat (by rfl) (by rfl)

/-- A singleton batch of entries joined by a separator is the entry
itself. -/
theorem intercalate_single (sep a : List Char) :
    List.intercalate sep [a] = a := by
  simp [List.intercalate]

/-- Unfolding of `List.intercalate` on two or more chunks. -/
theorem intercalate_cons2 (sep a b : List Char) (l : List (List Char)) :
    List.intercalate sep (a :: b :: l) =
      a ++ sep ++ List.intercalate sep (b :: l) := by
  simp [List.intercalate, List.intersperse_cons_cons, List.append_assoc]

/-- The key loop of `getKeysResponseStr` produces the `",\n"`-separated
quoted entries followed by a final newline, for 96-char keys. -/
theorem keysEntries_eq_sep :
    ∀ keys : List (List Char), (∀ k ∈ keys, k.length = 96) → keys ≠ [] →
      keysEntries keys =
        List.intercalate [',', '\n']
          (keys.map fun k => ['\"', '0', 'x'] ++ k ++ ['\"']) ++ ['\n']
  | [], _, hne => absurd rfl hne
  | [k], h, _ => by
    have hk : k.length ≤ 96 := le_of_eq (h k (by simp))
    simp [keysEntries, keyEntry, List.take_of_length_le hk,
      intercalate_single]
  | k :: k2 :: rest, h, _ => by
    have hk : k.length ≤ 96 := le_of_eq (h k (by simp))
    have ih := keysEntries_eq_sep (k2 :: rest)
      (fun x hx => h x (by simp [hx])) (List.cons_ne_nil k2 rest)
    have hstep : keysEntries (k :: k2 :: rest) =
        keyEntry k false ++ keysEntries (k2 :: rest) := rfl
    rw [hstep, ih]
    simp only [List.map_cons]
    rw [intercalate_cons2]
    simp [keyEntry, List.take_of_length_le hk, List.append_assoc]

/-- Byte length of the key loop output: 102 bytes per key, one byte less
for the missing comma of the last entry. -/
theorem keysEntries_length :
    ∀ keys : List (List Char), (∀ k ∈ keys, k.length = 96) → keys ≠ [] →
      (keysEntries keys).length = 102 * keys.length - 1
  | [], _, hne => absurd rfl hne
  | [k], h, _ => by
    have hk : k.length = 96 := h k (by simp)
    simp [keysEntries, keyEntry, List.length_append, List.length_take, hk]
  | k :: k2 :: rest, h, _ => by
    have hk : k.length = 96 := h k (by simp)
    have ih := keysEntries_length (k2 :: rest)
      (fun x hx => h x (by simp [hx])) (List.cons_ne_nil k2 rest)
    simp only [keysEntries, keyEntry, List.length_append, List.length_take,
      hk, ih, List.length_cons]
    simp
    omega

/-- Claim C9: for any keystore contents of at most `K` keys, each a
96-char hex string, the body `getKeysResponseStr` renders is exactly the
specified `[\n"0x..",\n..\n]` form (and exactly `[\n]` for zero keys), and
the `Content-Length` value it prints — the `jsonKeysSize` formula — equals
the exact byte length of that body. -/
theorem c9_listkeys_body_exact_and_length (keys : List (List Char))
    (hk : ∀ k ∈ keys, k.length = 96) (hcap : keys.length ≤ MAXKeys) :
    getKeysBody keys = specKeysBody keys ∧
    (getKeysBody keys).length = jsonKeysSize keys.length := by
  cases keys with
  | nil => exact ⟨rfl, rfl⟩
  | cons k rest =>
    constructor
    · rw [getKeysBody, specKeysBody, if_neg (by simp)]
      rw [keysEntries_eq_sep (k :: rest) hk (List.cons_ne_nil k rest)]
      simp [List.append_assoc]
    · rw [getKeysBody]
      have h1 := keysEntries_length (k :: rest) hk (List.cons_ne_nil k rest)
      simp only [List.length_append, h1, List.length_cons, List.length_nil,
        jsonKeysSize]
      rw [if_neg (by omega)]
      omega

/-- Witness for the C9 theorem at a concrete two-key store. -/
theorem c9_listkeys_witness :
    getKeysBody keysAB = specKeysBody keysAB ∧
    (getKeysBody keysAB).length = jsonKeysSize 2 := by
  have h := c9_listkeys_body_exact_and_length keysAB (by decide) (by decide)
  exact ⟨h.1, h.2⟩

/-- Counterexample to claim C2: `bufCLNotLast` is a complete, well-formed
POST whose header section is its first 70 bytes, whose `Content-Length`
value is 2 and whose total length is exactly `headers_len + 4 + N =
70 + 4 + 2` — by the claim it must parse as Complete regardless of where
the `Content-Length` header sits — yet `parseRequest` returns `-1`
(BadRequest) straight from the framing block, whatever the rest of the
parser would say, because the `Content-Length` header is not the last one
and the code measures `headlen` only up to the `'\r'` ending that header's
line. -/
theorem c2_framing_counterexample :
    parseRequestResult (fun _ => 0) bufCLNotLast = -1 ∧
    strstrIdx "\r\n\r\n".toList bufCLNotLast = some 70 ∧
    bufCLNotLast.length = 70 + 4 + 2 ∧
    strstrIdx "Content-Length: ".toList bufCLNotLast = some 33 ∧
    atoi (bufCLNotLast.drop (33 + 16)) = 2 := by
  refine ⟨by decide, by decide, by decide, by decide, by decide⟩

/-- First occurrence of a character in an append, when the first part does
not contain it. -/
theorem strchrIdx_append_of_none (c : Char) (xs ys : List Char)
    (h : ∀ x ∈ xs, (x == c) = false) :
    strchrIdx c (xs ++ ys) = (strchrIdx c ys).map (· + xs.length) := by
  induction xs with
  | nil =>
    cases hz : strchrIdx c ys <;> simp [hz]
  | cons x xs ih =>
    have hx := h x (by simp)
    have hrest : ∀ y ∈ xs, (y == c) = false := fun y hy => h y (by simp [hy])
    rw [List.cons_append, strchrIdx, hx]
    rw [if_neg (by simp)]
    rw [ih hrest]
    cases hz : strchrIdx c ys
    · simp [hz]
    · simp [hz]
      omega

/-- `atoiDigits` on a digit run followed by a non-digit folds exactly the
digit run. -/
theorem atoiDigits_digits_append (d : List Char) (c : Char) (t : List Char)
    (hd : ∀ x ∈ d, x.isDigit = true) (hc : c.isDigit = false) :
    ∀ acc, atoiDigits (d ++ c :: t) acc =
      d.foldl (fun a ch => a * 10 + (ch.toNat - 48)) acc := by
  induction d with
  | nil => intro acc; simp [atoiDigits, hc]
  | cons x d2 ih =>
    intro acc
    have hx := hd x (by simp)
    simp only [List.cons_append, atoiDigits, hx, if_true, List.foldl_cons]
    exact ih (fun y hy => hd y (by simp [hy])) _

/-- `atoi` of a nonempty digit run terminated by `'\r'` is the value of
the digits. -/
theorem atoi_digits_prefix (d t : List Char) (hne : d ≠ [])
    (hd : ∀ x ∈ d, x.isDigit = true) :
    atoi (d ++ '\r' :: t) = digitsVal d := by
  cases d with
  | nil => exact absurd rfl hne
  | cons x d2 =>
    have hx := hd x (by simp)
    have hxs : (x == ' ') = false := by
      cases hbe : x == ' '
      · rfl
      · exfalso
        rw [eq_of_beq hbe] at hx
        exact absurd hx (by decide)
    have h1 := atoiDigits_digits_append (x :: d2) '\r' t hd (by decide) 0
    rw [atoi, List.cons_append, List.dropWhile_cons, hxs]
    simpa [digitsVal] using h1

/-- Claim C2 as amended: the framing block measures `headlen` as the
offset of the first `'\r'` at or after the first `"Content-Length: "`
occurrence — the end of the Content-Length header line, not of the whole
header section.  For every well-formed POST whose Content-Length header is
the LAST header (so that this line end coincides with the end of the
header section, making `headers_len = |A| + 16 + |d|`), the buffer parses
as Incomplete while shorter than `headers_len + 4 + N`, falls through to
the parser (the Complete path) at exactly that length, and is BadRequest
when longer.  When another header follows Content-Length the equality
point moves to the shorter `clen + 4 + headlen`, and a complete
well-formed request is rejected, as the counterexample shows. -/
theorem c2_framing_content_length_last (A d b : List Char)
    (hpost : A.take 4 = "POST".toList) (hne : d ≠ [])
    (hdig : ∀ c ∈ d, c.isDigit = true)
    (hfirst : strstrIdx "Content-Length: ".toList
        (A ++ "Content-Length: ".toList ++ d ++ "\r\n\r\n".toList ++ b) =
      some A.length) :
    (b.length < digitsVal d →
      parseRequestFraming
          (A ++ "Content-Length: ".toList ++ d ++ "\r\n\r\n".toList ++ b) =
        FramingResult.decided (-2)) ∧
    (b.length = digitsVal d →
      parseRequestFraming
          (A ++ "Content-Length: ".toList ++ d ++ "\r\n\r\n".toList ++ b) =
        FramingResult.through) ∧
    (digitsVal d < b.length →
      parseRequestFraming
          (A ++ "Content-Length: ".toList ++ d ++ "\r\n\r\n".toList ++ b) =
        FramingResult.decided (-1)) := by
  set buf := A ++ "Content-Length: ".toList ++ d ++ "\r\n\r\n".toList ++ b
    with hbuf
  have hCL16 : ("Content-Length: ".toList).length = 16 := by decide
  have hCRLF4 : ("\r\n\r\n".toList).length = 4 := by decide
  have hcons : "\r\n\r\n".toList ++ b = '\r' :: '\n' :: '\r' :: '\n' :: b :=
    rfl
  have hassoc : buf = A ++ ("Content-Length: ".toList ++
      (d ++ ("\r\n\r\n".toList ++ b))) := by
    rw [hbuf]
    simp [List.append_assoc]
  have hA4 : 4 ≤ A.length := by
    have h := congrArg List.length hpost
    rw [List.length_take] at h
    have h4 : ("POST".toList).length = 4 := by decide
    rw [h4] at h
    rcases Nat.le_total 4 A.length with h5 | h5
    · exact h5
    · rw [Nat.min_eq_right h5] at h
      omega
  have htake : buf.take 4 = "POST".toList := by
    rw [hassoc, List.take_append_eq_append_take]
    rw [Nat.sub_eq_zero_of_le hA4, List.take_zero, List.append_nil]
    exact hpost
  have hdropA : buf.drop A.length =
      "Content-Length: ".toList ++ (d ++ ("\r\n\r\n".toList ++ b)) := by
    rw [hassoc, List.drop_left]
  have hCLr : ∀ x ∈ "Content-Length: ".toList, (x == '\r') = false := by
    decide
  have hnotr : ∀ x ∈ "Content-Length: ".toList ++ d, (x == '\r') = false := by
    intro x hx
    rcases List.mem_append.mp hx with h1 | h1
    · exact hCLr x h1
    · have h2 := hdig x h1
      cases hbe : x == '\r'
      · rfl
      · exfalso
        rw [eq_of_beq hbe] at h2
        exact absurd h2 (by decide)
  have hsplit : "Content-Length: ".toList ++ (d ++ ("\r\n\r\n".toList ++ b)) =
      ("Content-Length: ".toList ++ d) ++
        ('\r' :: '\n' :: '\r' :: '\n' :: b) := by
    rw [← hcons]
    simp [List.append_assoc]
  have hq : strchrIdx '\r' (buf.drop A.length) = some (16 + d.length) := by
    rw [hdropA, hsplit, strchrIdx_append_of_none '\r' _ _ hnotr]
    have hzero : strchrIdx '\r' ('\r' :: '\n' :: '\r' :: '\n' :: b) =
        some 0 := by
      simp [strchrIdx]
    rw [hzero, Option.map_some', List.length_append, hCL16]
    simp
  have hqm : (strchrIdx '\r' (buf.drop A.length)).map (· + A.length) =
      some (16 + d.length + A.length) := by
    rw [hq]
    rfl
  have hatoi : atoi (buf.drop (A.length + 16)) = digitsVal d := by
    have hre2 : buf = (A ++ "Content-Length: ".toList) ++
        (d ++ ('\r' :: '\n' :: '\r' :: '\n' :: b)) := by
      rw [hassoc, ← hcons]
      simp [List.append_assoc]
    have hl2 : (A ++ "Content-Length: ".toList).length = A.length + 16 := by
      rw [List.length_append, hCL16]
    have hdrop2 : buf.drop (A.length + 16) =
        d ++ ('\r' :: '\n' :: '\r' :: '\n' :: b) := by
      rw [hre2, ← hl2, List.drop_left]
    rw [hdrop2]
    exact atoi_digits_prefix d _ hne hdig
  have hlen : buf.length = A.length + 16 + d.length + 4 + b.length := by
    rw [hbuf]
    simp only [List.length_append, hCL16, hCRLF4]
  have h1 : ¬ (¬ (buf.take 4 = "POST".toList) ∧
      ¬ (buf.take 3 = "GET".toList)) := fun hc => hc.1 htake
  have hred : parseRequestFraming buf =
      if A.length + 16 + d.length + 4 + b.length >
          digitsVal d + 4 + (16 + d.length + A.length) then
        FramingResult.decided (-1)
      else if A.length + 16 + d.length + 4 + b.length <
          digitsVal d + 4 + (16 + d.length + A.length) then
        FramingResult.decided (-2)
      else FramingResult.through := by
    unfold parseRequestFraming
    rw [if_neg h1, if_pos htake, hfirst]
    show (match (strchrIdx '\r' (buf.drop A.length)).map (· + A.length) with
      | some q =>
        if buf.length > atoi (buf.drop (A.length + 16)) + 4 + q then
          FramingResult.decided (-1)
        else if buf.length < atoi (buf.drop (A.length + 16)) + 4 + q then
          FramingResult.decided (-2)
        else FramingResult.through
      | none =>
        if buf.length < 300 then FramingResult.decided (-2)
        else FramingResult.decided (-1)) = _
    rw [hqm]
    show (if buf.length >
        atoi (buf.drop (A.length + 16)) + 4 + (16 + d.length + A.length) then
        FramingResult.decided (-1)
      else if buf.length <
          atoi (buf.drop (A.length + 16)) + 4 + (16 + d.length + A.length) then
        FramingResult.decided (-2)
      else FramingResult.through) = _
    rw [hatoi, hlen]
  refine ⟨?_, ?_, ?_⟩
  · intro hb
    rw [hred, if_neg (by omega), if_pos (by omega)]
  · intro hb
    rw [hred, if_neg (by omega), if_neg (by omega)]
  · intro hb
    rw [hred, if_pos (by omega)]

/-- Witness for the amended C2 theorem: a complete POST whose
`Content-Length` header is the last header falls through the framing block
to the parser (the Complete path). -/
theorem c2_framing_content_length_last_witness :
    parseRequestFraming bufCLLast = FramingResult.through := by
  have h := c2_framing_content_length_last
    ("POST / HTTP/1.1\r\n".toList) ("2".toList) ("hi".toList)
    (by decide) (by decide) (by decide) (by decide)
  have hb : ("hi".toList).length = digitsVal ("2".toList) := by decide
  have h2 := h.2.1 hb
  have he : bufCLLast = "POST / HTTP/1.1\r\n".toList ++
      "Content-Length: ".toList ++ "2".toList ++ "\r\n\r\n".toList ++
      "hi".toList := by decide
  rw [he]
  exact h2

end BlsHsm
